import Mathlib

/-!
# Verification of the FluidX3D scenario driver (`src/setup.cpp`, `main_setup`)

Shallow embedding of the scenario driver: the boundary-initialization pass
over the grid (velocity seeding and domain-edge flag overwrite) and the
run-controller loop (export trigger, pause handling, batch stepping,
status writes).  Definitions are translated from `src/setup.cpp`; the few
engine operations whose code is not in the repository (`lbm.coordinates`,
`LBM::run` advancing the step counter, the flag tag constants) are modelled
from the spec and marked so in their doc comments.
-/

namespace CFD

/-! ## Flag tags

Modelled from the spec: the engine's per-cell flag is an enumerated tag;
the driver only compares against the SOLID tag (`TYPE_S`) and writes the
equilibrium-boundary tag (`TYPE_E`).  The engine headers are not in the
repository source; the spec requires only that the tags are distinct, which
the concrete values below provide. -/

/-- The SOLID tag `TYPE_S` (cell is a solid obstacle). -/
def TYPE_S : Nat := 1

/-- The equilibrium/open-boundary tag `TYPE_E`. -/
def TYPE_E : Nat := 2

/-! ## Grid state

`lbm.flags`, `lbm.u.x/y/z`, `lbm.rho`, indexed by the linear cell index `n`
exactly as in the source.  Velocity/density components live in an arbitrary
type `V` (the driver only stores the inlet constant, it never computes with
it, so the embedding need not fix a number type). -/

/-- The per-cell fields of the engine's grid that the driver touches:
flags, the three velocity components and density, indexed by linear cell
index `n`. -/
structure LBMFields (V : Type) where
  flags : Nat → Nat
  ux : Nat → V
  uy : Nat → V
  uz : Nat → V
  rho : Nat → V

/-- Modelled from the spec: `lbm.coordinates(n, x, y, z)` converts the linear
cell index `n` of an `Nx × Ny × Nz` grid to coordinates `(x, y, z)` with
`n = x + Nx * (y + Ny * z)` (row-major; the engine's implementation is not in
the repository source, and no claim depends on which bijection is used). -/
def coordinates (Nx Ny : Nat) (n : Nat) : Nat × Nat × Nat :=
  (n % Nx, (n / Nx) % Ny, n / (Nx * Ny))

/-- `x==0u||x==Nx-1u||y==0u||y==Ny-1u||z==0u||z==Nz-1u` — the edge test of
the boundary-initialization pass in `setup.cpp`. -/
def isEdge (Nx Ny Nz x y z : Nat) : Bool :=
  x == 0 || x == Nx - 1 || y == 0 || y == Ny - 1 || z == 0 || z == Nz - 1

/-- The boundary-initialization pass of `setup.cpp`:

```
parallel_for(lbm.get_N(), [&](ulong n) { uint x=0u, y=0u, z=0u; lbm.coordinates(n, x, y, z);
    if(lbm.flags[n]!=TYPE_S) lbm.u.x[n] = lbm_u;
    if(x==0u||x==Nx-1u||y==0u||y==Ny-1u||z==0u||z==Nz-1u) lbm.flags[n] = TYPE_E; });
```

Each iteration reads and writes only the slots of its own cell `n`, so the
parallel pass is the pointwise function below: the velocity seed tests the
pre-pass flag (the flag write comes after it in the same iteration), and the
edge overwrite is unconditional in the pre-pass flag. -/
def boundaryPass {V : Type} (u : V) (Nx Ny Nz : Nat) (st : LBMFields V) : LBMFields V where
  flags := fun n =>
    let c := coordinates Nx Ny n
    if isEdge Nx Ny Nz c.1 c.2.1 c.2.2 then TYPE_E else st.flags n
  ux := fun n => if st.flags n ≠ TYPE_S then u else st.ux n
  uy := st.uy
  uz := st.uz
  rho := st.rho

/-- The configured inlet velocity of the scenario, `lbm_u = 0.075f`
(= 3/40; the driver only stores the constant, never computes with it, so
the exact rational stands in for the float). -/
def lbm_u : ℚ := 3 / 40

/-- A grid state whose cells are all SOLID with zero velocity and unit
density: the state the voxelizer leaves when geometry covers every cell
(used as the concrete test state). -/
def allSolid : LBMFields ℚ where
  flags := fun _ => TYPE_S
  ux := fun _ => 0
  uy := fun _ => 0
  uz := fun _ => 0
  rho := fun _ => 1

end CFD

namespace CFD

/-- **C1.** After the boundary-initialization pass, every cell on the domain
boundary (x=0 ∨ x=Nx-1 ∨ y=0 ∨ y=Ny-1 ∨ z=0 ∨ z=Nz-1) has flag `TYPE_E`,
regardless of what flag (including SOLID) the state held before the pass:
the edge overwrite in `setup.cpp` is unconditional in the prior flag. -/
theorem edge_cells_become_TYPE_E {V : Type} (u : V) (Nx Ny Nz n : Nat)
    (st : LBMFields V)
    (h : isEdge Nx Ny Nz (coordinates Nx Ny n).1 (coordinates Nx Ny n).2.1
      (coordinates Nx Ny n).2.2 = true) :
    (boundaryPass u Nx Ny Nz st).flags n = TYPE_E := by
  simp only [boundaryPass, h, if_true]

/-- Witness for C1: in a 3×3×3 grid whose cells were all voxelized SOLID,
cell `n = 0` (coordinates (0,0,0)) lies on the edge and ends with flag
`TYPE_E`. -/
theorem edge_cells_become_TYPE_E_witness :
    isEdge 3 3 3 (coordinates 3 3 0).1 (coordinates 3 3 0).2.1
        (coordinates 3 3 0).2.2 = true ∧
      (boundaryPass lbm_u 3 3 3 allSolid).flags 0 = TYPE_E :=
  ⟨by decide, edge_cells_become_TYPE_E lbm_u 3 3 3 0 allSolid (by decide)⟩

/-- **C2 counterexample.** The claim "every domain-edge cell's velocity
x-component equals the configured inlet velocity u after the pass" fails:
in a 3×3×3 grid whose cells were all voxelized SOLID, cell `n = 0` is an
edge cell, its flag becomes `TYPE_E`, but its velocity x-component stays 0
≠ lbm_u, because the per-cell seed check read the flag (still SOLID) before
the edge overwrite. -/
theorem edge_cell_velocity_not_seeded_cex :
    isEdge 3 3 3 (coordinates 3 3 0).1 (coordinates 3 3 0).2.1
        (coordinates 3 3 0).2.2 = true ∧
      (boundaryPass lbm_u 3 3 3 allSolid).flags 0 = TYPE_E ∧
      (boundaryPass lbm_u 3 3 3 allSolid).ux 0 ≠ lbm_u := by
  refine ⟨by decide, by decide, ?_⟩
  simp only [boundaryPass, allSolid, lbm_u]
  norm_num

/-- **C2 (amended).** After the pass, every domain-edge cell's flag is
`TYPE_E` (so no edge cell is SOLID); its velocity x-component equals the
inlet velocity `u` exactly when its pre-pass flag was not SOLID, and is
unchanged when the voxelizer had marked it SOLID. -/
theorem edge_cells_open_and_conditionally_seeded {V : Type} (u : V)
    (Nx Ny Nz n : Nat) (st : LBMFields V)
    (h : isEdge Nx Ny Nz (coordinates Nx Ny n).1 (coordinates Nx Ny n).2.1
      (coordinates Nx Ny n).2.2 = true) :
    (boundaryPass u Nx Ny Nz st).flags n = TYPE_E ∧
      (st.flags n ≠ TYPE_S → (boundaryPass u Nx Ny Nz st).ux n = u) ∧
      (st.flags n = TYPE_S → (boundaryPass u Nx Ny Nz st).ux n = st.ux n) := by
  refine ⟨by simp only [boundaryPass, h, if_true], ?_, ?_⟩
  · intro hs
    simp only [boundaryPass]
    exact if_pos hs
  · intro hs
    simp only [boundaryPass, hs]
    simp

/-- Witness for the amended C2: in a 3×3×3 grid, all cells SOLID, edge cell
`n = 0` gets flag `TYPE_E` and keeps its velocity. -/
theorem edge_cells_open_and_conditionally_seeded_witness :
    isEdge 3 3 3 (coordinates 3 3 0).1 (coordinates 3 3 0).2.1
        (coordinates 3 3 0).2.2 = true ∧
      ((boundaryPass lbm_u 3 3 3 allSolid).flags 0 = TYPE_E ∧
        (allSolid.flags 0 ≠ TYPE_S →
          (boundaryPass lbm_u 3 3 3 allSolid).ux 0 = lbm_u) ∧
        (allSolid.flags 0 = TYPE_S →
          (boundaryPass lbm_u 3 3 3 allSolid).ux 0 = allSolid.ux 0)) :=
  ⟨by decide,
    edge_cells_open_and_conditionally_seeded lbm_u 3 3 3 0 allSolid (by decide)⟩

/-- **C4.** No cell whose flag is SOLID after the pass had its velocity
x-component seeded: a post-pass SOLID cell is not on an edge (edge cells end
`TYPE_E ≠ TYPE_S`), hence its flag is its pre-pass flag `TYPE_S`, hence the
seed check skipped it and its velocity x-component is unchanged. -/
theorem solid_after_pass_never_seeded {V : Type} (u : V) (Nx Ny Nz n : Nat)
    (st : LBMFields V)
    (h : (boundaryPass u Nx Ny Nz st).flags n = TYPE_S) :
    (boundaryPass u Nx Ny Nz st).ux n = st.ux n := by
  have hpre : st.flags n = TYPE_S := by
    by_cases he : isEdge Nx Ny Nz (coordinates Nx Ny n).1
        (coordinates Nx Ny n).2.1 (coordinates Nx Ny n).2.2 = true
    · exact absurd (by simpa [boundaryPass, he] using h) (by decide)
    · simpa [boundaryPass, he] using h
  simp [boundaryPass, hpre]

/-- Witness for C4: in a 3×3×3 all-SOLID grid, the interior cell `n = 13`
(coordinates (1,1,1)) is still SOLID after the pass, and its velocity
x-component is unchanged (0). -/
theorem solid_after_pass_never_seeded_witness :
    (boundaryPass lbm_u 3 3 3 allSolid).flags 13 = TYPE_S ∧
      (boundaryPass lbm_u 3 3 3 allSolid).ux 13 = allSolid.ux 13 :=
  ⟨by decide, solid_after_pass_never_seeded lbm_u 3 3 3 13 allSolid (by decide)⟩

/-- **C9.** A domain-edge cell whose pre-pass flag is SOLID ends the pass
with flag `TYPE_E` but with its velocity x-component unchanged (not the
inlet velocity seed): the seed check reads the flag before the edge
overwrite replaces SOLID. -/
theorem edge_solid_flag_flipped_velocity_kept {V : Type} (u : V)
    (Nx Ny Nz n : Nat) (st : LBMFields V)
    (hedge : isEdge Nx Ny Nz (coordinates Nx Ny n).1 (coordinates Nx Ny n).2.1
      (coordinates Nx Ny n).2.2 = true)
    (hsolid : st.flags n = TYPE_S) :
    (boundaryPass u Nx Ny Nz st).flags n = TYPE_E ∧
      (boundaryPass u Nx Ny Nz st).ux n = st.ux n := by
  constructor
  · simp only [boundaryPass, hedge, if_true]
  · simp [boundaryPass, hsolid]

/-- Witness for C9: in a 3×3×3 all-SOLID grid, edge cell `n = 1`
(coordinates (1,0,0)) ends with flag `TYPE_E` and unchanged velocity. -/
theorem edge_solid_flag_flipped_velocity_kept_witness :
    isEdge 3 3 3 (coordinates 3 3 1).1 (coordinates 3 3 1).2.1
        (coordinates 3 3 1).2.2 = true ∧
      allSolid.flags 1 = TYPE_S ∧
      ((boundaryPass lbm_u 3 3 3 allSolid).flags 1 = TYPE_E ∧
        (boundaryPass lbm_u 3 3 3 allSolid).ux 1 = allSolid.ux 1) :=
  ⟨by decide, by decide,
    edge_solid_flag_flipped_velocity_kept lbm_u 3 3 3 1 allSolid (by decide)
      (by decide)⟩

/-- **C10.** Frame conditions of the pass, at every cell: velocity y, z and
density are unchanged; the flag of a non-edge cell is unchanged; the
velocity x-component is unchanged for a cell that was SOLID when visited,
and equals the inlet velocity `u` otherwise. -/
theorem boundary_pass_frame {V : Type} (u : V) (Nx Ny Nz n : Nat)
    (st : LBMFields V) :
    (boundaryPass u Nx Ny Nz st).uy n = st.uy n ∧
      (boundaryPass u Nx Ny Nz st).uz n = st.uz n ∧
      (boundaryPass u Nx Ny Nz st).rho n = st.rho n ∧
      (isEdge Nx Ny Nz (coordinates Nx Ny n).1 (coordinates Nx Ny n).2.1
          (coordinates Nx Ny n).2.2 = false →
        (boundaryPass u Nx Ny Nz st).flags n = st.flags n) ∧
      (st.flags n = TYPE_S → (boundaryPass u Nx Ny Nz st).ux n = st.ux n) ∧
      (st.flags n ≠ TYPE_S → (boundaryPass u Nx Ny Nz st).ux n = u) := by
  refine ⟨rfl, rfl, rfl, ?_, ?_, ?_⟩
  · intro he
    simp [boundaryPass, he]
  · intro hs
    simp [boundaryPass, hs]
  · intro hs
    simp only [boundaryPass]
    exact if_pos hs

end CFD

namespace CFD

/-! ## The run controller

The main simulation loop of `setup.cpp`:

```
lbm.write_status();
lbm.run(0u, lbm_T); // initialize simulation
while(lbm.get_t()<=lbm_T && running) { // main simulation loop
    if(key_9) { ... exports ...; key_9 = false; ... }
    if(!key_P) { sleep(0.016); continue; }
    lbm.run(20u, lbm_T);
}
lbm.write_status();
```

Modelled from the spec where the engine's code is missing from the
repository source: `LBM::run(steps, total)` "advances the Engine by a
requested number of steps", so it adds `steps` to the step counter `t`
(the warm-up call `run(0, T)` initializes and leaves `t` at 0).  The
process-wide control signals `running`, `key_9` (export trigger) and
`key_P` (pause flag, true = running) are read each tick; their values at
each tick are supplied by an environment function. -/

/-- The process-wide control signals as the loop observes them at one tick:
`running` (global stop request, loop continues while true), `key9` (the
momentary export trigger `key_9`) and `keyP` (the pause flag `key_P`;
the loop steps only while it is true). -/
structure Signals where
  running : Bool
  key9 : Bool
  keyP : Bool
deriving DecidableEq

/-- The externally observable actions the controller performs, in order. -/
inductive Event where
  | statusWrite
  | runInit (total : Nat)
  | runBatch (steps : Nat)
  | info (msg : String)
  | exportVtk (field : String) (path : String)
  | sleep
deriving DecidableEq

/-- The hardcoded export directory of `setup.cpp`. -/
def manual_path : String := "D:/projects/vinci4d/CFD/FluidX3D-master/bin/export/"

/-- The events of the export block executed when `key_9` is observed true:
a log line, the `u`, `rho` and `flags` snapshot writes to `manual_path`,
and the closing log line (the trigger clear `key_9 = false` is a signal
write, not an event). -/
def exportEvents : List Event :=
  [Event.info "Export triggered by key_9. Saving snapshot...",
    Event.exportVtk "u" manual_path,
    Event.exportVtk "rho" manual_path,
    Event.exportVtk "flags" manual_path,
    Event.info ("Snapshot saved to " ++ manual_path)]

/-- One evaluation of the loop guard plus (when it holds) one pass through
the loop body, from the signal values `s` observed this tick and step
counter `t`: `none` when the guard `t ≤ T && running` fails and the loop
exits; otherwise the signal values after the controller's own writes (only
the `key_9` clear), the events of the tick, and the new step counter.
The export block runs first; then the pause check either sleeps and
`continue`s (no step advance) or runs a batch of `batch` steps. -/
def tick (T batch : Nat) (s : Signals) (t : Nat) :
    Option (Signals × List Event × Nat) :=
  if t ≤ T ∧ s.running = true then
    let s1 : Signals := if s.key9 then { s with key9 := false } else s
    let ev1 : List Event := if s.key9 then exportEvents else []
    some (if s.keyP = false then (s1, ev1 ++ [Event.sleep], t)
      else (s1, ev1 ++ [Event.runBatch batch], t + batch))
  else none

/-- The main loop, iterated from tick index `i` and step counter `t` with
signal values `env i` at tick `i`; `fuel` bounds the number of ticks
explored (the real loop can spin forever while paused).  Returns the
concatenated events, the final step counter and the index of the tick whose
guard evaluation ended the loop, or `none` when `fuel` ran out first. -/
def runLoop (T batch : Nat) (env : Nat → Signals) :
    Nat → Nat → Nat → Option (List Event × Nat × Nat)
  | 0, _, _ => none
  | fuel + 1, i, t =>
    match tick T batch (env i) t with
    | none => some ([], t, i)
    | some (_, evs, t') =>
      match runLoop T batch env fuel (i + 1) t' with
      | none => none
      | some (evs', tf, j) => some (evs ++ evs', tf, j)

/-- The whole controller run of `setup.cpp` from `lbm.write_status()` on:
status write, warm-up `lbm.run(0, T)` (step counter stays 0), the main
loop, and the final status write. -/
def controllerRun (T batch fuel : Nat) (env : Nat → Signals) :
    Option (List Event × Nat × Nat) :=
  match runLoop T batch env fuel 0 0 with
  | none => none
  | some (evs, tf, j) =>
    some (Event.statusWrite :: Event.runInit T :: (evs ++ [Event.statusWrite]), tf, j)

/-- An environment holding `running` true, the export trigger clear and the
pause flag in the running position at every tick. -/
def steadyEnv : Nat → Signals := fun _ => ⟨true, false, true⟩

/-- An environment that is paused with the export trigger set at tick 0,
then running normally: models an export request arriving during a pause
that is released before tick 1. -/
def pauseEnv : Nat → Signals := fun i =>
  if i = 0 then ⟨true, true, false⟩ else ⟨true, false, true⟩

/-- `true` exactly on the status-write event. -/
def isStatus : Event → Bool
  | Event.statusWrite => true
  | _ => false

/-- `true` exactly on batch-stepping events (any batch size). -/
def isBatch : Event → Bool
  | Event.runBatch _ => true
  | _ => false

/-- `true` exactly on field-snapshot export events. -/
def isExport : Event → Bool
  | Event.exportVtk _ _ => true
  | _ => false

/-- The events of one tick are drawn from the export block, the sleep and
the batch call: they satisfy any predicate false on those (used with
`isStatus`: no status write happens inside the loop body). -/
theorem tick_events_shape (T batch t : Nat) (s s1 : Signals)
    (evs : List Event) (t' : Nat)
    (h : tick T batch s t = some (s1, evs, t')) :
    evs = (if s.key9 then exportEvents else []) ++
      (if s.keyP = false then [Event.sleep] else [Event.runBatch batch]) := by
  rw [tick] at h
  by_cases hg : t ≤ T ∧ s.running = true
  · rw [if_pos hg] at h
    simp only [Option.some.injEq] at h
    by_cases hp : s.keyP = false
    · rw [if_pos hp] at h
      rw [if_pos hp]
      simp only [Prod.mk.injEq] at h
      exact h.2.1.symm
    · rw [if_neg hp] at h
      rw [if_neg hp]
      simp only [Prod.mk.injEq] at h
      exact h.2.1.symm
  · rw [if_neg hg] at h; exact absurd h (by simp)

/-- The loop itself never writes a status line: every status-write event of
a run comes from the two `lbm.write_status()` calls outside the loop. -/
theorem runLoop_no_status (T batch : Nat) (env : Nat → Signals) :
    ∀ fuel i t evs tf j, runLoop T batch env fuel i t = some (evs, tf, j) →
      evs.countP isStatus = 0 := by
  intro fuel
  induction fuel with
  | zero => intro i t evs tf j h; exact absurd h (by simp [runLoop])
  | succ fuel ih =>
    intro i t evs tf j h
    rw [runLoop] at h
    rcases htick : tick T batch (env i) t with _ | ⟨s1, evs1, t1⟩
    · rw [htick] at h
      simp only [Option.some.injEq, Prod.mk.injEq] at h
      rw [← h.1]
      rfl
    · rw [htick] at h
      dsimp only at h
      rcases hrec : runLoop T batch env fuel (i + 1) t1 with _ | ⟨evs2, tf2, j2⟩
      · rw [hrec] at h; exact absurd h (by simp)
      · rw [hrec] at h
        simp only [Option.some.injEq, Prod.mk.injEq] at h
        have h1 : evs1.countP isStatus = 0 := by
          rw [tick_events_shape T batch t (env i) s1 evs1 t1 htick,
            List.countP_append]
          have he : exportEvents.countP isStatus = 0 := by decide
          have hsl : List.countP isStatus [Event.sleep] = 0 := by decide
          have hbt : List.countP isStatus [Event.runBatch batch] = 0 := rfl
          rcases h9 : (env i).key9 with _ | _ <;>
            rcases hp : (env i).keyP with _ | _ <;> simp [h9, hp, he, hsl, hbt]
        rw [← h.1, List.countP_append, h1, ih (i + 1) t1 evs2 tf2 j2 hrec]

/-- The signal values after one tick's body: the controller's only signal
write is clearing `key_9` when it observed it set. -/
theorem tick_signals_shape (T batch t : Nat) (s s1 : Signals)
    (evs : List Event) (t' : Nat)
    (h : tick T batch s t = some (s1, evs, t')) :
    s1 = if s.key9 then { s with key9 := false } else s := by
  rw [tick] at h
  by_cases hg : t ≤ T ∧ s.running = true
  · rw [if_pos hg] at h
    simp only [Option.some.injEq] at h
    by_cases hp : s.keyP = false
    · rw [if_pos hp] at h
      simp only [Prod.mk.injEq] at h
      exact h.1.symm
    · rw [if_neg hp] at h
      simp only [Prod.mk.injEq] at h
      exact h.1.symm
  · rw [if_neg hg] at h; exact absurd h (by simp)

/-- The step counter after one tick's body: unchanged on a paused tick
(`continue` after the sleep), advanced by one batch otherwise. -/
theorem tick_t_shape (T batch t : Nat) (s s1 : Signals)
    (evs : List Event) (t' : Nat)
    (h : tick T batch s t = some (s1, evs, t')) :
    t' = if s.keyP = false then t else t + batch := by
  rw [tick] at h
  by_cases hg : t ≤ T ∧ s.running = true
  · rw [if_pos hg] at h
    simp only [Option.some.injEq] at h
    by_cases hp : s.keyP = false
    · rw [if_pos hp] at h
      rw [if_pos hp]
      simp only [Prod.mk.injEq] at h
      exact h.2.2.symm
    · rw [if_neg hp] at h
      rw [if_neg hp]
      simp only [Prod.mk.injEq] at h
      exact h.2.2.symm
  · rw [if_neg hg] at h; exact absurd h (by simp)

/-- The guard that ended the loop failed: at the final tick `j`, either the
step counter exceeds the budget or `running` was observed false. -/
theorem runLoop_exit_condition (T batch : Nat) (env : Nat → Signals) :
    ∀ fuel i t evs tf j, runLoop T batch env fuel i t = some (evs, tf, j) →
      T < tf ∨ (env j).running = false := by
  intro fuel
  induction fuel with
  | zero => intro i t evs tf j h; exact absurd h (by simp [runLoop])
  | succ fuel ih =>
    intro i t evs tf j h
    rw [runLoop] at h
    rcases htick : tick T batch (env i) t with _ | ⟨s1, evs1, t1⟩
    · rw [htick] at h
      simp only [Option.some.injEq, Prod.mk.injEq] at h
      rw [tick] at htick
      by_cases hg : t ≤ T ∧ (env i).running = true
      · rw [if_pos hg] at htick; exact absurd htick (by simp)
      · rw [← h.2.1, ← h.2.2]
        rcases Decidable.not_and_iff_or_not.mp hg with hT | hr
        · exact Or.inl (Nat.lt_of_not_le hT)
        · exact Or.inr (Bool.not_eq_true _ ▸ hr)
    · rw [htick] at h
      dsimp only at h
      rcases hrec : runLoop T batch env fuel (i + 1) t1 with _ | ⟨evs2, tf2, j2⟩
      · rw [hrec] at h; exact absurd h (by simp)
      · rw [hrec] at h
        simp only [Option.some.injEq, Prod.mk.injEq] at h
        exact h.2.1 ▸ h.2.2 ▸ ih (i + 1) t1 evs2 tf2 j2 hrec

/-- **C3 counterexample.** With step budget T = 100, batch size 20,
`running` and the pause flag held true and the trigger clear, the loop
issues 6 stepping batches (t runs 0, 20, …, 100, each ≤ T, so the guard
admits a sixth batch ending at t = 120), not the claimed "exactly 5 (or
fewer)": the guard is `t <= T`, so the batch starting at t = 100 still
runs. -/
theorem five_batches_cex :
    (runLoop 100 20 steadyEnv 8 0 0).map
        (fun r => (r.1.countP isBatch, r.2.1)) = some (6, 120) ∧
      ¬((6 : Nat) ≤ 5) := by
  constructor
  · decide
  · decide

/-- **C3 (amended).** With step budget T = 100 and batch size 20, `running`
held true and the pause flag in the running position throughout, the loop
issues exactly 6 stepping batches and terminates at t = 120; in general,
whenever the loop exits, at the final guard evaluation either t > T or
`running` was observed false. -/
theorem six_batches_then_terminate :
    ((runLoop 100 20 steadyEnv 8 0 0).map
        (fun r => (r.1.countP isBatch, r.2.1)) = some (6, 120)) ∧
      (∀ T batch fuel i t env evs tf j,
        runLoop T batch env fuel i t = some (evs, tf, j) →
          T < tf ∨ (env j).running = false) :=
  ⟨by decide, fun T batch fuel i t env evs tf j h =>
    runLoop_exit_condition T batch env fuel i t evs tf j h⟩

/-- **C5.** On a tick whose observed pause flag is false (paused), the step
counter does not advance and no stepping batch is issued; an export trigger
observed on that same tick still produces the three field exports within
that tick (hence before any later stepping batch in the trace).  The last
conjunct replays the concrete scenario: trigger set while paused at tick 0,
pause released at tick 1 — the exports appear in the trace before every
stepping batch. -/
theorem paused_tick_no_advance (T batch t : Nat) (s s1 : Signals)
    (evs : List Event) (t' : Nat) (hP : s.keyP = false)
    (h : tick T batch s t = some (s1, evs, t')) :
    t' = t ∧ evs.countP isBatch = 0 ∧
      (s.key9 = true → Event.exportVtk "u" manual_path ∈ evs ∧
        Event.exportVtk "rho" manual_path ∈ evs ∧
        Event.exportVtk "flags" manual_path ∈ evs) ∧
      (runLoop 20 20 pauseEnv 5 0 0).map (fun r => r.1) =
        some (exportEvents ++
          [Event.sleep, Event.runBatch 20, Event.runBatch 20]) := by
  have hev := tick_events_shape T batch t s s1 evs t' h
  have ht := tick_t_shape T batch t s s1 evs t' h
  rw [if_pos hP] at ht
  rw [if_pos hP] at hev
  refine ⟨ht, ?_, ?_, by decide⟩
  · rw [hev, List.countP_append]
    have he : exportEvents.countP isBatch = 0 := by decide
    have hsl : List.countP isBatch [Event.sleep] = 0 := by decide
    rcases h9 : s.key9 with _ | _ <;> simp [h9, he, hsl]
  · intro h9
    rw [hev, h9]
    refine ⟨?_, ?_, ?_⟩ <;> · rw [if_pos rfl]; decide

/-- Witness for C5: a paused tick (pause flag false, trigger set) at
T = 100, batch = 20, t = 0. -/
theorem paused_tick_no_advance_witness :
    (0 : Nat) = 0 ∧ (exportEvents ++ [Event.sleep]).countP isBatch = 0 ∧
      (true = true → Event.exportVtk "u" manual_path ∈
          exportEvents ++ [Event.sleep] ∧
        Event.exportVtk "rho" manual_path ∈ exportEvents ++ [Event.sleep] ∧
        Event.exportVtk "flags" manual_path ∈ exportEvents ++ [Event.sleep]) ∧
      (runLoop 20 20 pauseEnv 5 0 0).map (fun r => r.1) =
        some (exportEvents ++
          [Event.sleep, Event.runBatch 20, Event.runBatch 20]) :=
  paused_tick_no_advance 100 20 0 ⟨true, true, false⟩ ⟨true, false, false⟩
    (exportEvents ++ [Event.sleep]) 0 rfl (by decide)

/-- **C6.** If the export trigger is observed set at the start of a tick
whose guard holds, the tick's body leaves it false — the clear is
unconditional after the export block — and the tick performs exactly one
export block (then either the sleep or one batch), so one trigger causes at
most one export attempt. -/
theorem export_trigger_cleared (T batch t : Nat) (s s1 : Signals)
    (evs : List Event) (t' : Nat) (h9 : s.key9 = true)
    (h : tick T batch s t = some (s1, evs, t')) :
    s1.key9 = false ∧
      (evs = exportEvents ++ [Event.sleep] ∨
        evs = exportEvents ++ [Event.runBatch batch]) := by
  have hs := tick_signals_shape T batch t s s1 evs t' h
  have hev := tick_events_shape T batch t s s1 evs t' h
  rw [h9] at hs hev
  constructor
  · rw [hs]
    simp
  · rw [hev]
    by_cases hp : s.keyP = false
    · rw [if_pos hp]
      exact Or.inl (by simp)
    · rw [if_neg hp]
      exact Or.inr (by simp)

/-- Witness for C6: a running tick with the trigger set at T = 100,
batch = 20, t = 0. -/
theorem export_trigger_cleared_witness :
    (⟨true, false, true⟩ : Signals).key9 = false ∧
      (exportEvents ++ [Event.runBatch 20] = exportEvents ++ [Event.sleep] ∨
        exportEvents ++ [Event.runBatch 20] =
          exportEvents ++ [Event.runBatch 20]) :=
  export_trigger_cleared 100 20 0 ⟨true, true, true⟩ ⟨true, false, true⟩
    (exportEvents ++ [Event.runBatch 20]) 20 rfl (by decide)

/-- **C7.** The controller's only signal write in a tick is the export
trigger: the post-tick signal values keep `running` and the pause flag
exactly as observed, and either the trigger was observed set and is now
false, or the controller wrote nothing at all (the signal state is
untouched). -/
theorem controller_writes_only_trigger (T batch t : Nat) (s s1 : Signals)
    (evs : List Event) (t' : Nat)
    (h : tick T batch s t = some (s1, evs, t')) :
    s1.running = s.running ∧ s1.keyP = s.keyP ∧
      ((s.key9 = true ∧ s1.key9 = false) ∨ s1 = s) := by
  have hs := tick_signals_shape T batch t s s1 evs t' h
  rcases h9 : s.key9 with _ | _
  · rw [h9] at hs
    simp only [Bool.false_eq_true, if_false] at hs
    exact ⟨by rw [hs], by rw [hs], Or.inr hs⟩
  · rw [h9] at hs
    simp only [if_true] at hs
    exact ⟨by rw [hs], by rw [hs], Or.inl ⟨rfl, by rw [hs]⟩⟩

/-- Witness for C7: a running tick with the trigger set at T = 100,
batch = 20, t = 0. -/
theorem controller_writes_only_trigger_witness :
    (⟨true, false, true⟩ : Signals).running =
        (⟨true, true, true⟩ : Signals).running ∧
      (⟨true, false, true⟩ : Signals).keyP =
        (⟨true, true, true⟩ : Signals).keyP ∧
      (((⟨true, true, true⟩ : Signals).key9 = true ∧
          (⟨true, false, true⟩ : Signals).key9 = false) ∨
        (⟨true, false, true⟩ : Signals) = ⟨true, true, true⟩) :=
  controller_writes_only_trigger 100 20 0 ⟨true, true, true⟩
    ⟨true, false, true⟩ (exportEvents ++ [Event.runBatch 20]) 20 (by decide)

/-- **C8.** Whenever the controller run terminates — for any environment,
budget, batch size, and either exit cause — its event trace contains
exactly two status writes, one at the very start (before the warm-up
`run(0, T)`) and one as the final event after the loop; the loop events in
between contain none. -/
theorem status_written_exactly_twice (T batch fuel : Nat)
    (env : Nat → Signals) (evs : List Event) (tf j : Nat)
    (h : controllerRun T batch fuel env = some (evs, tf, j)) :
    evs.countP isStatus = 2 ∧
      ∃ loopEvs, evs = Event.statusWrite :: Event.runInit T ::
          (loopEvs ++ [Event.statusWrite]) ∧ loopEvs.countP isStatus = 0 := by
  rw [controllerRun] at h
  rcases hrec : runLoop T batch env fuel 0 0 with _ | ⟨evs1, tf1, j1⟩
  · rw [hrec] at h; exact absurd h (by simp)
  · rw [hrec] at h
    dsimp only at h
    simp only [Option.some.injEq, Prod.mk.injEq] at h
    have h0 := runLoop_no_status T batch env fuel 0 0 evs1 tf1 j1 hrec
    refine ⟨?_, evs1, h.1.symm, h0⟩
    have hs1 : isStatus Event.statusWrite = true := rfl
    have hs2 : isStatus (Event.runInit T) = false := rfl
    rw [← h.1]
    simp [List.countP_cons, List.countP_append, h0, hs1, hs2]

/-- Witness for C8: the concrete steady run with T = 100, batch = 20. -/
theorem status_written_exactly_twice_witness :
    (Event.statusWrite :: Event.runInit 100 ::
          (List.replicate 6 (Event.runBatch 20) ++
            [Event.statusWrite])).countP isStatus = 2 ∧
      ∃ loopEvs, Event.statusWrite :: Event.runInit 100 ::
            (List.replicate 6 (Event.runBatch 20) ++ [Event.statusWrite]) =
          Event.statusWrite :: Event.runInit 100 ::
            (loopEvs ++ [Event.statusWrite]) ∧
        loopEvs.countP isStatus = 0 :=
  status_written_exactly_twice 100 20 8 steadyEnv
    (Event.statusWrite :: Event.runInit 100 ::
      (List.replicate 6 (Event.runBatch 20) ++ [Event.statusWrite]))
    120 6 (by decide)

end CFD
